import Mathlib

/-!
Verification of the KdV example script (`examples/kdv/train.py`) of the
PINNs-Torch repository.  The script defines two callbacks handed to the
training framework:

* `read_data_fn root_path` : loads `KdV.mat`, extracts the field `uu`,
  takes its real part, casts to 32-bit float and returns it under key `u`;
* `pde_fn outputs x extra_variables` : computes three successive
  forward-mode spatial derivatives of the network output `u` and stores the
  KdV residual `f = -l1 * u * U_x - exp(l2) * U_xxx` in the outputs mapping.

The embedding below represents tensors appearing in `pde_fn` as symbolic
functions of the single spatial coordinate (`Expr`), Python dictionaries as
association lists with in-place update semantics (`getKey?` / `setKey`),
and the `.mat` container consumed by `read_data_fn` as a finite mapping
from field names to arrays of complex rational entries.
-/

namespace KdV

/-- Symbolic scalar field over the single spatial coordinate: the shape of
values flowing through `pde_fn`.  `var` is the coordinate tensor `x`;
`l1` and `l2` are the two learnable scalar parameters of the inverse
problem; the remaining constructors are the tensor operations the script
uses (negation, product, difference, exponential, rational constants). -/
inductive Expr where
  | const : ℚ → Expr
  | var : Expr
  | l1 : Expr
  | l2 : Expr
  | add : Expr → Expr → Expr
  | sub : Expr → Expr → Expr
  | mul : Expr → Expr → Expr
  | neg : Expr → Expr
  | exp : Expr → Expr
deriving DecidableEq

/-- Exact derivative of a symbolic field with respect to the spatial
coordinate: the tangent recurrence that forward-mode automatic
differentiation implements on the computation graph. -/
def Expr.d : Expr → Expr
  | Expr.const _ => Expr.const 0
  | Expr.var => Expr.const 1
  | Expr.l1 => Expr.const 0
  | Expr.l2 => Expr.const 0
  | Expr.add a b => Expr.add a.d b.d
  | Expr.sub a b => Expr.sub a.d b.d
  | Expr.mul a b => Expr.add (Expr.mul a.d b) (Expr.mul a b.d)
  | Expr.neg a => Expr.neg a.d
  | Expr.exp a => Expr.mul a.d (Expr.exp a)

/-- Evaluation of a symbolic field in a field `F` equipped with an
exponential map `E`, at coordinate value `t` and parameter values `a`
(for `l1`) and `b` (for `l2`).  The intended instance is `F = ℝ`,
`E = Real.exp`. -/
def Expr.evalWith {F : Type} [Field F] (E : F → F) (t a b : F) : Expr → F
  | Expr.const q => (q : F)
  | Expr.var => t
  | Expr.l1 => a
  | Expr.l2 => b
  | Expr.add e1 e2 => e1.evalWith E t a b + e2.evalWith E t a b
  | Expr.sub e1 e2 => e1.evalWith E t a b - e2.evalWith E t a b
  | Expr.mul e1 e2 => e1.evalWith E t a b * e2.evalWith E t a b
  | Expr.neg e => -(e.evalWith E t a b)
  | Expr.exp e => E (e.evalWith E t a b)

/-- True when the field does not mention the learnable parameters `l1`,
`l2`: the case of a genuine network output, a function of `x` alone. -/
def Expr.noParams : Expr → Bool
  | Expr.const _ => true
  | Expr.var => true
  | Expr.l1 => false
  | Expr.l2 => false
  | Expr.add e1 e2 => e1.noParams && e2.noParams
  | Expr.sub e1 e2 => e1.noParams && e2.noParams
  | Expr.mul e1 e2 => e1.noParams && e2.noParams
  | Expr.neg e => e.noParams
  | Expr.exp e => e.noParams

/-- Python dictionary lookup `m[k]` on an association list (a `none`
result corresponds to a `KeyError`). -/
def getKey? {α : Type} : List (String × α) → String → Option α
  | [], _ => none
  | (k', v) :: rest, k => if k' = k then some v else getKey? rest k

/-- Python dictionary assignment `m[k] = v`: overwrite the binding in
place when the key is present, append it otherwise. -/
def setKey {α : Type} : List (String × α) → String → α → List (String × α)
  | [], k, v => [(k, v)]
  | (k', v') :: rest, k, v =>
      if k' = k then (k, v) :: rest else (k', v') :: setKey rest k v

/-- Modelled from the spec: `pinnstorch.utils.fwd_gradient` (framework
code, not part of the example file) computes the exact forward-mode
derivative of `u` with respect to the coordinate tensor `x`.  In this
embedding every tensor is a function of the single spatial coordinate, so
the derivative is taken with respect to that coordinate; the `x` argument
only designates the differentiation variable, as in the library call. -/
def fwd_gradient (u : Expr) (_x : Expr) : Expr := u.d

/-- Mapping from field name to tensor, the shape of `outputs` and
`extra_variables` in `pde_fn`. -/
abbrev ExprMap := List (String × Expr)

/-- Embedding of `pde_fn(outputs, x, extra_variables)` from
`examples/kdv/train.py`: read `U = outputs["u"]`, form the three
successive forward-mode gradients, store
`outputs["f"] = -extra_variables["l1"] * U * U_x -
torch.exp(extra_variables["l2"]) * U_xxx` and return the mapping.
A `none` result corresponds to an uncaught `KeyError` on a missing
dictionary entry. -/
def pde_fn (outputs : ExprMap) (x : Expr) (extra_variables : ExprMap) :
    Option ExprMap :=
  match getKey? outputs "u" with
  | none => none
  | some U =>
      let U_x := fwd_gradient U x
      let U_xx := fwd_gradient U_x x
      let U_xxx := fwd_gradient U_xx x
      match getKey? extra_variables "l1", getKey? extra_variables "l2" with
      | some e1, some e2 =>
          some (setKey outputs "f"
            (Expr.sub (Expr.mul (Expr.mul (Expr.neg e1) U) U_x)
              (Expr.mul (Expr.exp e2) U_xxx)))
      | _, _ => none

/-- The residual expression `pde_fn` stores under key `f`, for network
output `U` and parameter entries `e1 = extra_variables["l1"]`,
`e2 = extra_variables["l2"]`. -/
def kdv_residual (U e1 e2 : Expr) : Expr :=
  Expr.sub (Expr.mul (Expr.mul (Expr.neg e1) U) U.d)
    (Expr.mul (Expr.exp e2) U.d.d.d)

/-- Array element type tags relevant to the loader. -/
inductive DType where
  | float32
  | float64
  | complex128
deriving DecidableEq

/-- A 2-D numeric array: a dtype tag and a list of rows of complex
entries, each entry a pair (real part, imaginary part) of rationals. -/
structure NDArr where
  dtype : DType
  data : List (List (ℚ × ℚ))
deriving DecidableEq

/-- Shape of a 2-D array: (number of rows, length of the first row). -/
def NDArr.shape (a : NDArr) : ℕ × ℕ :=
  (a.data.length, (a.data.headD []).length)

/-- True when every entry has zero imaginary part. -/
def NDArr.realOnly (a : NDArr) : Bool :=
  a.data.all fun row => row.all fun p => p.2 == 0

/-- Embedding of `np.real`: keep the real part of every entry. -/
def np_real (a : NDArr) : NDArr :=
  ⟨DType.float64, a.data.map (List.map fun p => (p.1, 0))⟩

/-- Embedding of `.astype("float32")`: retag the array as 32-bit float
(values are modelled exactly, up to floating-point rounding). -/
def astype_float32 (a : NDArr) : NDArr :=
  ⟨DType.float32, a.data⟩

/-- A field stored in a `.mat` container: a numeric array or some
non-numeric content. -/
inductive MatValue where
  | num : NDArr → MatValue
  | other : MatValue
deriving DecidableEq

/-- Contents of a `.mat` container file: named fields. -/
abbrev MatFile := List (String × MatValue)

/-- A directory: named files with `.mat` contents. -/
abbrev RootDir := List (String × MatFile)

/-- Error taxonomy of the data-loading layer. -/
inductive DataError where
  | DataNotFoundError
  | DataFormatError
deriving DecidableEq

/-- Modelled from the spec: `pinnstorch.utils.load_data` (framework code,
not part of the example file) locates and parses the named file in the
root directory, returning its fields, and fails with `DataNotFoundError`
when the file is absent. -/
def load_data (root_path : RootDir) (name : String) :
    Except DataError MatFile :=
  match getKey? root_path name with
  | none => Except.error DataError.DataNotFoundError
  | some file => Except.ok file

/-- Embedding of `read_data_fn(root_path)` from `examples/kdv/train.py`:
load `KdV.mat`, take `exact_u = np.real(data["uu"]).astype("float32")`
and return `{"u": exact_u}`.  A missing or non-numeric `uu` field fails
with `DataFormatError`, the taxonomy's name for the uncaught error the
field access raises. -/
def read_data_fn (root_path : RootDir) :
    Except DataError (List (String × NDArr)) :=
  match load_data root_path "KdV.mat" with
  | Except.error e => Except.error e
  | Except.ok data =>
      match getKey? data "uu" with
      | some (MatValue.num arr) =>
          Except.ok [("u", astype_float32 (np_real arr))]
      | some MatValue.other => Except.error DataError.DataFormatError
      | none => Except.error DataError.DataFormatError

/-- Assignment followed by lookup of the same key returns the assigned
value. -/
theorem getKey?_setKey_self {α : Type} (m : List (String × α)) (k : String)
    (v : α) : getKey? (setKey m k v) k = some v := by
  induction m with
  | nil => simp [getKey?, setKey]
  | cons hd tl ih =>
      obtain ⟨k', v'⟩ := hd
      by_cases hk : k' = k
      · simp [getKey?, setKey, hk]
      · simp [getKey?, setKey, hk, ih]

/-- Assignment to one key leaves lookups of every other key unchanged. -/
theorem getKey?_setKey_ne {α : Type} (m : List (String × α)) (k k' : String)
    (v : α) (h : k' ≠ k) : getKey? (setKey m k v) k' = getKey? m k' := by
  induction m with
  | nil => simp [getKey?, setKey, Ne.symm h]
  | cons hd tl ih =>
      obtain ⟨k0, v0⟩ := hd
      by_cases hk : k0 = k
      · subst hk
        simp [getKey?, setKey, Ne.symm h]
      · simp only [setKey, hk, if_false, getKey?]
        by_cases hk' : k0 = k'
        · simp [hk']
        · simp [hk', ih]

/-- Two successive assignments to the same key keep only the second. -/
theorem setKey_setKey {α : Type} (m : List (String × α)) (k : String)
    (v w : α) : setKey (setKey m k v) k w = setKey m k w := by
  induction m with
  | nil => simp [setKey]
  | cons hd tl ih =>
      obtain ⟨k0, v0⟩ := hd
      by_cases hk : k0 = k
      · simp [setKey, hk]
      · simp [setKey, hk, ih]

/-- The derivative of a parameter-free field is parameter-free. -/
theorem Expr.noParams_d (e : Expr) (h : e.noParams = true) :
    e.d.noParams = true := by
  induction e with
  | const q => simp [Expr.d, Expr.noParams]
  | var => simp [Expr.d, Expr.noParams]
  | l1 => simp [Expr.noParams] at h
  | l2 => simp [Expr.noParams] at h
  | add e1 e2 ih1 ih2 =>
      simp only [Expr.noParams, Bool.and_eq_true] at h
      simp [Expr.d, Expr.noParams, ih1 h.1, ih2 h.2]
  | sub e1 e2 ih1 ih2 =>
      simp only [Expr.noParams, Bool.and_eq_true] at h
      simp [Expr.d, Expr.noParams, ih1 h.1, ih2 h.2]
  | mul e1 e2 ih1 ih2 =>
      simp only [Expr.noParams, Bool.and_eq_true] at h
      simp [Expr.d, Expr.noParams, h.1, h.2, ih1 h.1, ih2 h.2]
  | neg e ih =>
      simp only [Expr.noParams] at h
      simp [Expr.d, Expr.noParams, ih h]
  | exp e ih =>
      simp only [Expr.noParams] at h
      simp [Expr.d, Expr.noParams, h, ih h]

/-- Evaluation of a parameter-free field does not depend on the values
assigned to `l1` and `l2`. -/
theorem Expr.evalWith_noParams {F : Type} [Field F] (E : F → F) (e : Expr)
    (h : e.noParams = true) (t a b a' b' : F) :
    e.evalWith E t a b = e.evalWith E t a' b' := by
  induction e with
  | const q => simp [Expr.evalWith]
  | var => simp [Expr.evalWith]
  | l1 => simp [Expr.noParams] at h
  | l2 => simp [Expr.noParams] at h
  | add e1 e2 ih1 ih2 =>
      simp only [Expr.noParams, Bool.and_eq_true] at h
      simp [Expr.evalWith, ih1 h.1, ih2 h.2]
  | sub e1 e2 ih1 ih2 =>
      simp only [Expr.noParams, Bool.and_eq_true] at h
      simp [Expr.evalWith, ih1 h.1, ih2 h.2]
  | mul e1 e2 ih1 ih2 =>
      simp only [Expr.noParams, Bool.and_eq_true] at h
      simp [Expr.evalWith, ih1 h.1, ih2 h.2]
  | neg e ih =>
      simp only [Expr.noParams] at h
      simp [Expr.evalWith, ih h]
  | exp e ih =>
      simp only [Expr.noParams] at h
      simp [Expr.evalWith, ih h]

/-- Soundness of the forward-mode tangent recurrence: at every point, the
real-valued function denoted by a symbolic field has the function denoted
by its symbolic derivative as its derivative. -/
theorem Expr.hasDerivAt_evalWith (e : Expr) (a b t : ℝ) :
    HasDerivAt (fun s : ℝ => Expr.evalWith Real.exp s a b e)
      (Expr.evalWith Real.exp t a b e.d) t := by
  induction e with
  | const q => simpa [Expr.evalWith, Expr.d] using hasDerivAt_const t ((q : ℝ))
  | var => simpa [Expr.evalWith, Expr.d] using hasDerivAt_id t
  | l1 => simpa [Expr.evalWith, Expr.d] using hasDerivAt_const t a
  | l2 => simpa [Expr.evalWith, Expr.d] using hasDerivAt_const t b
  | add e1 e2 ih1 ih2 => simpa [Expr.evalWith, Expr.d] using ih1.add ih2
  | sub e1 e2 ih1 ih2 => simpa [Expr.evalWith, Expr.d] using ih1.sub ih2
  | mul e1 e2 ih1 ih2 => simpa [Expr.evalWith, Expr.d] using ih1.mul ih2
  | neg e ih => simpa [Expr.evalWith, Expr.d] using ih.neg
  | exp e ih => simpa [Expr.evalWith, Expr.d, mul_comm] using ih.exp

/-- Function-level form of forward-mode soundness: `deriv` of the denoted
function is the denotation of the symbolic derivative. -/
theorem Expr.deriv_evalWith (e : Expr) (a b : ℝ) :
    (deriv fun s : ℝ => Expr.evalWith Real.exp s a b e)
      = fun t : ℝ => Expr.evalWith Real.exp t a b e.d :=
  funext fun t => (e.hasDerivAt_evalWith a b t).deriv

/-- Taking real parts then retagging as float32 preserves the shape. -/
theorem shape_astype_np_real (a : NDArr) :
    (astype_float32 (np_real a)).shape = a.shape := by
  obtain ⟨dt, rows⟩ := a
  cases rows with
  | nil => simp [NDArr.shape, np_real, astype_float32]
  | cons r rs => simp [NDArr.shape, np_real, astype_float32]

/-- Dropping imaginary parts is the identity on a row whose entries all
have zero imaginary part. -/
theorem map_real_row (row : List (ℚ × ℚ))
    (h : (row.all fun p => p.2 == 0) = true) :
    row.map (fun p => (p.1, (0 : ℚ))) = row := by
  induction row with
  | nil => simp
  | cons p ps ih =>
      obtain ⟨px, py⟩ := p
      simp only [List.all_cons, Bool.and_eq_true, beq_iff_eq] at h
      simp [h.1, ih h.2]

/-- Dropping imaginary parts is the identity on rows whose entries all
have zero imaginary part. -/
theorem map_real_rows : ∀ rows : List (List (ℚ × ℚ)),
    (rows.all fun row => row.all fun p => p.2 == 0) = true →
    rows.map (List.map fun p => (p.1, (0 : ℚ))) = rows := by
  intro rows
  induction rows with
  | nil => intro _; simp
  | cons r rs ih =>
      intro h
      simp only [List.all_cons, Bool.and_eq_true] at h
      simp [map_real_row r h.1, ih h.2]

/-- On an array whose entries all have zero imaginary part, `np.real`
leaves the data unchanged. -/
theorem np_real_data_of_realOnly (a : NDArr) (h : a.realOnly = true) :
    (np_real a).data = a.data := by
  obtain ⟨dt, rows⟩ := a
  exact map_real_rows rows h

/-- Computation rule for `pde_fn` when all three dictionary lookups
succeed: the returned mapping is the input mapping with the KdV residual
written under `f`. -/
theorem pde_fn_eq (o ev : ExprMap) (x U e1 e2 : Expr)
    (hU : getKey? o "u" = some U) (h1 : getKey? ev "l1" = some e1)
    (h2 : getKey? ev "l2" = some e2) :
    pde_fn o x ev = some (setKey o "f" (kdv_residual U e1 e2)) := by
  simp [pde_fn, hU, h1, h2, fwd_gradient, kdv_residual]

/-- Inversion: a successful `pde_fn` call means all three lookups
succeeded and the result is the input mapping with the residual written
under `f`. -/
theorem pde_fn_some_inv (o ev : ExprMap) (x : Expr) (r : ExprMap)
    (h : pde_fn o x ev = some r) :
    ∃ U e1 e2 : Expr, getKey? o "u" = some U ∧
      getKey? ev "l1" = some e1 ∧ getKey? ev "l2" = some e2 ∧
      r = setKey o "f" (kdv_residual U e1 e2) := by
  cases hU : getKey? o "u" with
  | none => simp [pde_fn, hU] at h
  | some U =>
      cases h1 : getKey? ev "l1" with
      | none => simp [pde_fn, hU, h1] at h
      | some e1 =>
          cases h2 : getKey? ev "l2" with
          | none => simp [pde_fn, hU, h1, h2] at h
          | some e2 =>
              refine ⟨U, e1, e2, rfl, rfl, rfl, ?_⟩
              simp [pde_fn, hU, h1, h2, fwd_gradient, kdv_residual] at h
              exact h.symm

/-- C1: for every outputs mapping containing a field `u`, every
coordinate tensor `x`, and every extra-variables mapping with entries
`l1` and `l2`, `pde_fn` writes `f = -l1 * u * U_x - exp(l2) * U_xxx`
into the outputs mapping under key `f` and returns the mapping, where
`U_x`, `U_xx`, `U_xxx` are the three successive forward-mode derivatives
of `u` with respect to `x`; semantically, the stored residual denotes
`-l1 * u * (du/dx) - exp(l2) * (d3u/dx3)` with genuine derivatives. -/
theorem pde_fn_computes_kdv_residual (o ev : ExprMap) (x U e1 e2 : Expr)
    (hU : getKey? o "u" = some U) (h1 : getKey? ev "l1" = some e1)
    (h2 : getKey? ev "l2" = some e2) :
    pde_fn o x ev = some (setKey o "f" (kdv_residual U e1 e2)) ∧
    kdv_residual U e1 e2
      = Expr.sub (Expr.mul (Expr.mul (Expr.neg e1) U) (fwd_gradient U x))
          (Expr.mul (Expr.exp e2)
            (fwd_gradient (fwd_gradient (fwd_gradient U x) x) x)) ∧
    ∀ t a b : ℝ,
      Expr.evalWith Real.exp t a b (kdv_residual U e1 e2)
        = -(Expr.evalWith Real.exp t a b e1) * Expr.evalWith Real.exp t a b U
            * deriv (fun s : ℝ => Expr.evalWith Real.exp s a b U) t
          - Real.exp (Expr.evalWith Real.exp t a b e2)
            * deriv (deriv (deriv fun s : ℝ =>
                Expr.evalWith Real.exp s a b U)) t := by
  refine ⟨pde_fn_eq o ev x U e1 e2 hU h1 h2, rfl, ?_⟩
  intro t a b
  rw [U.deriv_evalWith a b, U.d.deriv_evalWith a b, U.d.d.deriv_evalWith a b]
  simp only [kdv_residual, Expr.evalWith]

/-- Witness for C1 at the network output `u(x) = x` with the canonical
parameter entries. -/
theorem pde_fn_computes_kdv_residual_witness :
    pde_fn [("u", Expr.var)] Expr.var [("l1", Expr.l1), ("l2", Expr.l2)]
      = some (setKey [("u", Expr.var)] "f"
          (kdv_residual Expr.var Expr.l1 Expr.l2)) ∧
    kdv_residual Expr.var Expr.l1 Expr.l2
      = Expr.sub
          (Expr.mul (Expr.mul (Expr.neg Expr.l1) Expr.var)
            (fwd_gradient Expr.var Expr.var))
          (Expr.mul (Expr.exp Expr.l2)
            (fwd_gradient
              (fwd_gradient (fwd_gradient Expr.var Expr.var) Expr.var)
              Expr.var)) ∧
    ∀ t a b : ℝ,
      Expr.evalWith Real.exp t a b (kdv_residual Expr.var Expr.l1 Expr.l2)
        = -(Expr.evalWith Real.exp t a b Expr.l1)
            * Expr.evalWith Real.exp t a b Expr.var
            * deriv (fun s : ℝ => Expr.evalWith Real.exp s a b Expr.var) t
          - Real.exp (Expr.evalWith Real.exp t a b Expr.l2)
            * deriv (deriv (deriv fun s : ℝ =>
                Expr.evalWith Real.exp s a b Expr.var)) t :=
  pde_fn_computes_kdv_residual [("u", Expr.var)]
    [("l1", Expr.l1), ("l2", Expr.l2)] Expr.var Expr.var Expr.l1 Expr.l2
    rfl rfl rfl

/-- C4: whenever a `pde_fn` call returns a mapping, that mapping contains
the key `f`; and the presence of `u` in the outputs mapping on entry is a
precondition: without it the call does not return a mapping. -/
theorem pde_fn_f_populated (o ev : ExprMap) (x : Expr) :
    (∀ r : ExprMap, pde_fn o x ev = some r →
      (getKey? r "f").isSome = true) ∧
    (getKey? o "u" = none → pde_fn o x ev = none) := by
  constructor
  · intro r hr
    obtain ⟨U, e1, e2, hU, h1, h2, hre⟩ := pde_fn_some_inv o ev x r hr
    rw [hre, getKey?_setKey_self]
    rfl
  · intro h
    simp [pde_fn, h]

/-- Witness for C4: a populated call has `f` in its result, and a call on
an outputs mapping without `u` returns no mapping. -/
theorem pde_fn_f_populated_witness :
    (getKey? [("u", Expr.var),
      ("f", kdv_residual Expr.var Expr.l1 Expr.l2)] "f").isSome = true ∧
    pde_fn [] Expr.var [("l1", Expr.l1), ("l2", Expr.l2)] = none :=
  ⟨(pde_fn_f_populated [("u", Expr.var)] [("l1", Expr.l1), ("l2", Expr.l2)]
        Expr.var).1
      [("u", Expr.var), ("f", kdv_residual Expr.var Expr.l1 Expr.l2)] rfl,
    (pde_fn_f_populated [] [("l1", Expr.l1), ("l2", Expr.l2)] Expr.var).2 rfl⟩

/-- C5: for a constant network output `u(x) = c`, the three successive
forward-mode gradients are the zero field, and the residual stored by
`pde_fn` evaluates to `0` everywhere, for every `l1`, `l2`. -/
theorem pde_fn_const_field (o ev : ExprMap) (x e1 e2 : Expr) (c : ℚ)
    (hU : getKey? o "u" = some (Expr.const c))
    (h1 : getKey? ev "l1" = some e1) (h2 : getKey? ev "l2" = some e2) :
    fwd_gradient (Expr.const c) x = Expr.const 0 ∧
    fwd_gradient (fwd_gradient (Expr.const c) x) x = Expr.const 0 ∧
    fwd_gradient (fwd_gradient (fwd_gradient (Expr.const c) x) x) x
      = Expr.const 0 ∧
    pde_fn o x ev = some (setKey o "f" (kdv_residual (Expr.const c) e1 e2)) ∧
    ∀ t a b : ℝ,
      Expr.evalWith Real.exp t a b (kdv_residual (Expr.const c) e1 e2) = 0 := by
  refine ⟨rfl, rfl, rfl, pde_fn_eq o ev x _ e1 e2 hU h1 h2, ?_⟩
  intro t a b
  simp [kdv_residual, Expr.d, Expr.evalWith]

/-- Witness for C5 at `u(x) = 5`. -/
theorem pde_fn_const_field_witness :
    fwd_gradient (Expr.const 5) Expr.var = Expr.const 0 ∧
    fwd_gradient (fwd_gradient (Expr.const 5) Expr.var) Expr.var
      = Expr.const 0 ∧
    fwd_gradient
        (fwd_gradient (fwd_gradient (Expr.const 5) Expr.var) Expr.var)
        Expr.var
      = Expr.const 0 ∧
    pde_fn [("u", Expr.const 5)] Expr.var [("l1", Expr.l1), ("l2", Expr.l2)]
      = some (setKey [("u", Expr.const 5)] "f"
          (kdv_residual (Expr.const 5) Expr.l1 Expr.l2)) ∧
    ∀ t a b : ℝ,
      Expr.evalWith Real.exp t a b
        (kdv_residual (Expr.const 5) Expr.l1 Expr.l2) = 0 :=
  pde_fn_const_field [("u", Expr.const 5)] [("l1", Expr.l1), ("l2", Expr.l2)]
    Expr.var Expr.l1 Expr.l2 5 rfl rfl rfl

/-- C6: with the outputs, the coordinate and `l2` fixed, doubling the
value of `l1` exactly doubles the contribution of the first residual term
to `f` as computed by `pde_fn` (the second term, and hence the `f` value
at `l1 = 0`, is unchanged): the first term is homogeneous of degree 1 in
`l1`.  The contribution of the first term at `l1 = v` is the difference
between the residual at `l1 = v` and the residual at `l1 = 0`. -/
theorem pde_fn_l1_doubling (o : ExprMap) (x U : Expr) (r : ExprMap)
    (f : Expr) (hU : getKey? o "u" = some U) (hfree : U.noParams = true)
    (hr : pde_fn o x [("l1", Expr.l1), ("l2", Expr.l2)] = some r)
    (hf : getKey? r "f" = some f) (t a b : ℝ) :
    Expr.evalWith Real.exp t (2 * a) b f - Expr.evalWith Real.exp t 0 b f
      = 2 * (Expr.evalWith Real.exp t a b f
          - Expr.evalWith Real.exp t 0 b f) := by
  rw [pde_fn_eq o [("l1", Expr.l1), ("l2", Expr.l2)] x U Expr.l1 Expr.l2
    hU rfl rfl] at hr
  have hfval : f = kdv_residual U Expr.l1 Expr.l2 := by
    rw [← Option.some.inj hr, getKey?_setKey_self] at hf
    exact (Option.some.inj hf).symm
  subst hfval
  have hU0 : ∀ α : ℝ,
      Expr.evalWith Real.exp t α b U = Expr.evalWith Real.exp t 0 b U :=
    fun α => U.evalWith_noParams Real.exp hfree t α b 0 b
  have hU1 : ∀ α : ℝ,
      Expr.evalWith Real.exp t α b U.d = Expr.evalWith Real.exp t 0 b U.d :=
    fun α => U.d.evalWith_noParams Real.exp (U.noParams_d hfree) t α b 0 b
  have hU3 : ∀ α : ℝ,
      Expr.evalWith Real.exp t α b U.d.d.d
        = Expr.evalWith Real.exp t 0 b U.d.d.d :=
    fun α => U.d.d.d.evalWith_noParams Real.exp
      (Expr.noParams_d _ (Expr.noParams_d _ (U.noParams_d hfree))) t α b 0 b
  simp only [kdv_residual, Expr.evalWith]
  rw [hU0 (2 * a), hU0 a, hU1 (2 * a), hU1 a, hU3 (2 * a), hU3 a]
  ring

/-- Witness for C6 at `u(x) = x`, `t = 0`, `l1` value `1` doubled to `2`,
`l2` value `0`. -/
theorem pde_fn_l1_doubling_witness :
    Expr.evalWith Real.exp 0 (2 * 1) 0
          (kdv_residual Expr.var Expr.l1 Expr.l2)
        - Expr.evalWith Real.exp 0 0 0
            (kdv_residual Expr.var Expr.l1 Expr.l2)
      = 2 * (Expr.evalWith Real.exp 0 1 0
            (kdv_residual Expr.var Expr.l1 Expr.l2)
          - Expr.evalWith Real.exp 0 0 0
              (kdv_residual Expr.var Expr.l1 Expr.l2)) :=
  pde_fn_l1_doubling [("u", Expr.var)] Expr.var Expr.var
    [("u", Expr.var), ("f", kdv_residual Expr.var Expr.l1 Expr.l2)]
    (kdv_residual Expr.var Expr.l1 Expr.l2) rfl rfl rfl rfl 0 1 0

/-- C7: two successive `pde_fn` calls on the same (aliased and updated)
outputs mapping with the same coordinate and extra variables produce the
same value under key `f`: the computation is deterministic and no hidden
state is mutated between the calls. -/
theorem pde_fn_second_call_same_f (o ev r r' : ExprMap) (x : Expr)
    (h1 : pde_fn o x ev = some r) (h2 : pde_fn r x ev = some r') :
    getKey? r' "f" = getKey? r "f" := by
  obtain ⟨U, e1, e2, hU, hl1, hl2, hre⟩ := pde_fn_some_inv o ev x r h1
  subst hre
  have hu2 : getKey? (setKey o "f" (kdv_residual U e1 e2)) "u" = some U := by
    rw [getKey?_setKey_ne o "f" "u" _ (by decide)]
    exact hU
  rw [pde_fn_eq _ ev x U e1 e2 hu2 hl1 hl2] at h2
  rw [← Option.some.inj h2, setKey_setKey, getKey?_setKey_self]

/-- Witness for C7 at `u(x) = x` with the canonical extra variables. -/
theorem pde_fn_second_call_same_f_witness :
    getKey? [("u", Expr.var), ("f", kdv_residual Expr.var Expr.l1 Expr.l2)]
        "f"
      = getKey? [("u", Expr.var),
          ("f", kdv_residual Expr.var Expr.l1 Expr.l2)] "f" :=
  pde_fn_second_call_same_f [("u", Expr.var)]
    [("l1", Expr.l1), ("l2", Expr.l2)]
    [("u", Expr.var), ("f", kdv_residual Expr.var Expr.l1 Expr.l2)]
    [("u", Expr.var), ("f", kdv_residual Expr.var Expr.l1 Expr.l2)]
    Expr.var rfl rfl

/-- C8: a successful `pde_fn` call changes the outputs mapping at key `f`
only: every other key, in particular `u`, is bound to the same value
afterwards.  The coordinate and the extra-variables mapping are read,
never written, and the loader has no effect beyond reading its input. -/
theorem pde_fn_frame (o ev r : ExprMap) (x : Expr) (k : String)
    (h : pde_fn o x ev = some r) (hk : k ≠ "f") :
    getKey? r k = getKey? o k := by
  obtain ⟨U, e1, e2, hU, h1, h2, hre⟩ := pde_fn_some_inv o ev x r h
  subst hre
  exact getKey?_setKey_ne o "f" k _ hk

/-- Witness for C8: the `u` binding survives a `pde_fn` call unchanged. -/
theorem pde_fn_frame_witness :
    getKey? [("u", Expr.var), ("f", kdv_residual Expr.var Expr.l1 Expr.l2)]
        "u"
      = getKey? [("u", Expr.var)] "u" :=
  pde_fn_frame [("u", Expr.var)] [("l1", Expr.l1), ("l2", Expr.l2)]
    [("u", Expr.var), ("f", kdv_residual Expr.var Expr.l1 Expr.l2)]
    Expr.var "u" rfl (by decide)

/-- C10: the mapping returned by `pde_fn` is the received outputs mapping
updated in place at key `f` (not a fresh mapping); any value already
stored under `f` on entry is overwritten, so the result does not depend
on it, and the returned binding of `f` is the newly computed residual. -/
theorem pde_fn_overwrites_f (o ev : ExprMap) (x U e1 e2 : Expr)
    (hU : getKey? o "u" = some U) (h1 : getKey? ev "l1" = some e1)
    (h2 : getKey? ev "l2" = some e2) :
    pde_fn o x ev = some (setKey o "f" (kdv_residual U e1 e2)) ∧
    (∀ v : Expr, pde_fn (setKey o "f" v) x ev = pde_fn o x ev) ∧
    (∀ r : ExprMap, pde_fn o x ev = some r →
      getKey? r "f" = some (kdv_residual U e1 e2)) := by
  have heq := pde_fn_eq o ev x U e1 e2 hU h1 h2
  refine ⟨heq, ?_, ?_⟩
  · intro v
    have hu' : getKey? (setKey o "f" v) "u" = some U := by
      rw [getKey?_setKey_ne o "f" "u" v (by decide)]
      exact hU
    rw [pde_fn_eq _ ev x U e1 e2 hu' h1 h2, heq, setKey_setKey]
  · intro r hr
    rw [heq] at hr
    rw [← Option.some.inj hr, getKey?_setKey_self]

/-- Witness for C10 at `u(x) = x`, with `f` pre-bound to the constant
`7` before the call. -/
theorem pde_fn_overwrites_f_witness :
    pde_fn [("u", Expr.var)] Expr.var [("l1", Expr.l1), ("l2", Expr.l2)]
      = some (setKey [("u", Expr.var)] "f"
          (kdv_residual Expr.var Expr.l1 Expr.l2)) ∧
    (∀ v : Expr,
      pde_fn (setKey [("u", Expr.var)] "f" v) Expr.var
          [("l1", Expr.l1), ("l2", Expr.l2)]
        = pde_fn [("u", Expr.var)] Expr.var
            [("l1", Expr.l1), ("l2", Expr.l2)]) ∧
    (∀ r : ExprMap,
      pde_fn [("u", Expr.var)] Expr.var [("l1", Expr.l1), ("l2", Expr.l2)]
          = some r →
      getKey? r "f" = some (kdv_residual Expr.var Expr.l1 Expr.l2)) :=
  pde_fn_overwrites_f [("u", Expr.var)] [("l1", Expr.l1), ("l2", Expr.l2)]
    Expr.var Expr.var Expr.l1 Expr.l2 rfl rfl rfl

/-- C2: when the root directory holds a `KdV.mat` file whose field `uu`
is a numeric array with all imaginary parts zero, `read_data_fn` returns
the mapping `{"u": array}` where the array is tagged 32-bit float, has
the same shape as `uu`, and holds exactly the real parts of `uu` (here
exactly: values are modelled up to floating-point rounding). -/
theorem read_data_fn_ok (root : RootDir) (file : MatFile) (a : NDArr)
    (hfile : getKey? root "KdV.mat" = some file)
    (huu : getKey? file "uu" = some (MatValue.num a))
    (hreal : a.realOnly = true) :
    read_data_fn root = Except.ok [("u", astype_float32 (np_real a))] ∧
    (astype_float32 (np_real a)).dtype = DType.float32 ∧
    (astype_float32 (np_real a)).shape = a.shape ∧
    (astype_float32 (np_real a)).data = a.data := by
  refine ⟨?_, rfl, shape_astype_np_real a, np_real_data_of_realOnly a hreal⟩
  simp [read_data_fn, load_data, hfile, huu]

/-- Witness for C2 on a 2 by 2 complex array with zero imaginary parts. -/
theorem read_data_fn_ok_witness :
    read_data_fn [("KdV.mat", [("uu", MatValue.num
        ⟨DType.complex128, [[(1, 0), (2, 0)], [(3, 0), (4, 0)]]⟩)])]
      = Except.ok [("u", astype_float32 (np_real
          ⟨DType.complex128, [[(1, 0), (2, 0)], [(3, 0), (4, 0)]]⟩))] ∧
    (astype_float32 (np_real
        ⟨DType.complex128, [[(1, 0), (2, 0)], [(3, 0), (4, 0)]]⟩)).dtype
      = DType.float32 ∧
    (astype_float32 (np_real
        ⟨DType.complex128, [[(1, 0), (2, 0)], [(3, 0), (4, 0)]]⟩)).shape
      = NDArr.shape ⟨DType.complex128, [[(1, 0), (2, 0)], [(3, 0), (4, 0)]]⟩ ∧
    (astype_float32 (np_real
        ⟨DType.complex128, [[(1, 0), (2, 0)], [(3, 0), (4, 0)]]⟩)).data
      = [[(1, 0), (2, 0)], [(3, 0), (4, 0)]] :=
  read_data_fn_ok
    [("KdV.mat", [("uu", MatValue.num
      ⟨DType.complex128, [[(1, 0), (2, 0)], [(3, 0), (4, 0)]]⟩)])]
    [("uu", MatValue.num
      ⟨DType.complex128, [[(1, 0), (2, 0)], [(3, 0), (4, 0)]]⟩)]
    ⟨DType.complex128, [[(1, 0), (2, 0)], [(3, 0), (4, 0)]]⟩
    rfl rfl (by decide)

/-- C3: a root directory without `KdV.mat` makes `read_data_fn` fail with
`DataNotFoundError`; a `KdV.mat` file whose field `uu` is missing, or
non-numeric, makes it fail with `DataFormatError`; in each case the error
is the function's result, propagated to the caller with no retry or
recovery at this layer. -/
theorem read_data_fn_errors (root : RootDir) :
    (getKey? root "KdV.mat" = none →
      read_data_fn root = Except.error DataError.DataNotFoundError) ∧
    (∀ file : MatFile, getKey? root "KdV.mat" = some file →
      getKey? file "uu" = none →
      read_data_fn root = Except.error DataError.DataFormatError) ∧
    (∀ file : MatFile, getKey? root "KdV.mat" = some file →
      getKey? file "uu" = some MatValue.other →
      read_data_fn root = Except.error DataError.DataFormatError) := by
  refine ⟨?_, ?_, ?_⟩
  · intro h
    simp [read_data_fn, load_data, h]
  · intro file hfile huu
    simp [read_data_fn, load_data, hfile, huu]
  · intro file hfile huu
    simp [read_data_fn, load_data, hfile, huu]

/-- Witness for C3: an empty directory, a `KdV.mat` without `uu`, and a
`KdV.mat` with a non-numeric `uu`. -/
theorem read_data_fn_errors_witness :
    read_data_fn [] = Except.error DataError.DataNotFoundError ∧
    read_data_fn [("KdV.mat", [])]
      = Except.error DataError.DataFormatError ∧
    read_data_fn [("KdV.mat", [("uu", MatValue.other)])]
      = Except.error DataError.DataFormatError :=
  ⟨(read_data_fn_errors []).1 rfl,
    (read_data_fn_errors [("KdV.mat", [])]).2.1 [] rfl rfl,
    (read_data_fn_errors [("KdV.mat", [("uu", MatValue.other)])]).2.2
      [("uu", MatValue.other)] rfl rfl⟩

/-- C9: whatever the input directory, a successful `read_data_fn` result
is a mapping whose only key is `u`: every other field of the `.mat`
container is discarded. -/
theorem read_data_fn_single_key (root : RootDir)
    (m : List (String × NDArr)) (h : read_data_fn root = Except.ok m) :
    m.map Prod.fst = ["u"] := by
  cases hf : load_data root "KdV.mat" with
  | error e => simp [read_data_fn, hf] at h
  | ok data =>
      cases huu : getKey? data "uu" with
      | none => simp [read_data_fn, hf, huu] at h
      | some v =>
          cases v with
          | other => simp [read_data_fn, hf, huu] at h
          | num arr =>
              simp only [read_data_fn, hf, huu, Except.ok.injEq] at h
              subst h
              rfl

/-- Witness for C9 on a `.mat` container that also holds unrelated
fields `tt` and `x`, none of which reach the result. -/
theorem read_data_fn_single_key_witness :
    List.map Prod.fst [("u", astype_float32 (np_real
        ⟨DType.float64, [[(6, 0)]]⟩))] = ["u"] :=
  read_data_fn_single_key
    [("KdV.mat", [("tt", MatValue.other),
      ("uu", MatValue.num ⟨DType.float64, [[(6, 0)]]⟩),
      ("x", MatValue.other)])]
    [("u", astype_float32 (np_real ⟨DType.float64, [[(6, 0)]]⟩))] rfl

end KdV
